import Mathlib

/-!
Shallow embedding of the OT5 / PSE-4 valuation tool
(`src/app.py`, `src/valuation/constants.py`).

Modelling conventions:
* Python `float` arithmetic on monetary amounts and hours is idealised as
  exact rational arithmetic (`ℚ`).
* A Python function that can raise an exception is embedded as an
  `Option`-valued function; `none` models a raised exception.
* Text is modelled as `List Char` / `String`; Python's `str.lower()` is
  modelled with `Char.toLower` (all text involved is cased only in ASCII).
* `re.finditer` over the fixed pattern
  `(\d{1,2}:\d{2}\s*(?:am|pm))\s*[–\-]\s*(\d{1,2}:\d{2}\s*(?:am|pm))`
  (flag `IGNORECASE`) is embedded by a deterministic scanner.  For this
  particular pattern backtracking never changes the outcome: `\d{1,2}` can
  fall back to one digit only when the following character is `:`, which a
  digit never is, and `\s*` can yield characters back only to a literal that
  is itself never whitespace, so the greedy parse is the unique parse.
-/

namespace OT5

/-- Python `\s` on ASCII text: space, tab, newline, carriage return,
vertical tab, form feed. -/
def isPySpace (c : Char) : Bool :=
  c = ' ' || c = '\t' || c = '\n' || c = '\r' || c = '\x0b' || c = '\x0c'

/-- ASCII digit test (regex `\d` on the ASCII inputs in scope). -/
def isAsciiDigit (c : Char) : Bool :=
  '0' ≤ c && c ≤ '9'

/-- Numeric value of an ASCII digit. -/
def digitVal (c : Char) : ℕ :=
  c.toNat - 48

/-- Python `str.lower()` on a character list (ASCII). -/
def lowerList (cs : List Char) : List Char :=
  cs.map Char.toLower

/-- Python substring membership `needle in haystack`. -/
def isSubOf (needle : List Char) : List Char → Bool
  | [] => needle.isEmpty
  | c :: cs => needle.isPrefixOf (c :: cs) || isSubOf needle (cs)

/-- Consume a maximal run of whitespace (regex `\s*`), returning the
consumed characters and the rest. -/
def takeSpaces : List Char → List Char × List Char
  | [] => ([], [])
  | c :: cs =>
    if isPySpace c then
      let p := takeSpaces cs
      (c :: p.1, p.2)
    else ([], c :: cs)

/-- Consume the designator `(?:am|pm)`, case-insensitively. -/
def takeAmPm : List Char → Option (List Char × List Char)
  | a :: b :: rest =>
    if (a.toLower = 'a' || a.toLower = 'p') && b.toLower = 'm' then
      some ([a, b], rest)
    else none
  | _ => none

/-- Finish a time group: after the `H:MM`/`HH:MM` digits `hd`, consume
`\s*(?:am|pm)` and return the full captured group text and the rest. -/
def takeTimeTail (hd : List Char) (rest : List Char) : Option (List Char × List Char) :=
  let p := takeSpaces rest
  match takeAmPm p.2 with
  | some (ap, r2) => some (hd ++ p.1 ++ ap, r2)
  | none => none

/-- Consume one captured time group `\d{1,2}:\d{2}\s*(?:am|pm)`. -/
def takeTimeGroup : List Char → Option (List Char × List Char)
  | d1 :: ':' :: m1 :: m2 :: rest =>
    if isAsciiDigit d1 && isAsciiDigit m1 && isAsciiDigit m2 then
      takeTimeTail [d1, ':', m1, m2] rest
    else none
  | d1 :: d2 :: ':' :: m1 :: m2 :: rest =>
    if isAsciiDigit d1 && isAsciiDigit d2 && isAsciiDigit m1 && isAsciiDigit m2 then
      takeTimeTail [d1, d2, ':', m1, m2] rest
    else none
  | _ => none

/-- Consume the range separator `\s*[–\-]\s*`. -/
def takeSep (cs : List Char) : Option (List Char) :=
  match (takeSpaces cs).2 with
  | c :: rest =>
    if c = '–' || c = '-' then some (takeSpaces rest).2 else none
  | [] => none

/-- Attempt the whole range pattern at the current position; on success
return the two captured groups and the remaining text. -/
def matchAt (cs : List Char) : Option (List Char × List Char × List Char) :=
  match takeTimeGroup cs with
  | none => none
  | some (g1, r1) =>
    match takeSep r1 with
    | none => none
    | some r2 =>
      match takeTimeGroup r2 with
      | none => none
      | some (g2, r3) => some (g1, g2, r3)

/-- One `re.finditer` match: the two captured groups and the match's
start/end offsets in the scanned text. -/
structure TimeMatch where
  g1 : List Char
  g2 : List Char
  mstart : ℕ
  mend : ℕ
deriving Repr, DecidableEq

/-- `re.finditer` scan: try the pattern at each position, emit
non-overlapping matches left to right.  `fuel` bounds the recursion; one
unit is spent per position advanced, so `cs.length` fuel is always enough. -/
def scanMatches : ℕ → List Char → ℕ → List TimeMatch
  | 0, _, _ => []
  | _ + 1, [], _ => []
  | fuel + 1, c :: cs, pos =>
    match matchAt (c :: cs) with
    | some (g1, g2, rest) =>
      let consumed := (c :: cs).length - rest.length
      ⟨g1, g2, pos, pos + consumed⟩ :: scanMatches fuel rest (pos + consumed)
    | none => scanMatches fuel cs (pos + 1)

/-- All matches of the time-range pattern in a text. -/
def findMatches (cs : List Char) : List TimeMatch :=
  scanMatches cs.length cs 0

/-- Regex alternation `(1[0-2]|0[1-9]|[1-9])` for `%I` in
`datetime.strptime`. -/
def parseHour12 : List Char → Option (ℕ × List Char)
  | '1' :: c :: rest =>
    if c = '0' || c = '1' || c = '2' then some (10 + digitVal c, rest)
    else some (1, c :: rest)
  | '0' :: c :: rest =>
    if '1' ≤ c && c ≤ '9' then some (digitVal c, rest) else none
  | c :: rest =>
    if '1' ≤ c && c ≤ '9' then some (digitVal c, rest) else none
  | [] => none

/-- Regex alternation `([0-5]\d|\d)` for `%M` in `datetime.strptime`. -/
def parseMin : List Char → Option (ℕ × List Char)
  | a :: b :: rest =>
    if ('0' ≤ a && a ≤ '5') && isAsciiDigit b then
      some (10 * digitVal a + digitVal b, rest)
    else if isAsciiDigit a then some (digitVal a, b :: rest)
    else none
  | a :: rest =>
    if isAsciiDigit a then some (digitVal a, rest) else none
  | [] => none

/-- `%p` handling in `datetime.strptime`: convert a 1–12 hour plus the
am/pm flag to a 24-hour value. -/
def hourTo24 (h : ℕ) (pm : Bool) : ℕ :=
  if pm then (if h = 12 then 12 else h + 12)
  else (if h = 12 then 0 else h)

/-- Python `str.strip()` (ASCII whitespace). -/
def stripChars (cs : List Char) : List Char :=
  ((cs.dropWhile isPySpace).reverse.dropWhile isPySpace).reverse

/-- `parse_time` from `src/app.py`:
`datetime.strptime(t.strip().lower(), "%I:%M %p")`, returned as minutes
since midnight.  `none` models the `ValueError` that `strptime` raises
when the stripped, lowercased token does not fully match
`(1[0-2]|0[1-9]|[1-9]):([0-5]\d|\d)\s+(am|pm)` (CPython compiles the
format's literal space to `\s+`). -/
def parse_time (t : List Char) : Option ℕ :=
  let s := lowerList (stripChars t)
  match parseHour12 s with
  | none => none
  | some (h, r1) =>
    match r1 with
    | ':' :: r2 =>
      match parseMin r2 with
      | none => none
      | some (m, r3) =>
        match r3 with
        | c :: r4 =>
          if isPySpace c then
            match (takeSpaces r4).2 with
            | p :: 'm' :: r6 =>
              if (p = 'a' || p = 'p') && r6.isEmpty then
                some (hourTo24 h (p = 'p') * 60 + m)
              else none
            | _ => none
          else none
        | [] => none
    | _ => none

/-- `(e - s).seconds / 3600` on two same-day `datetime`s given as minutes
since midnight (`s`, `e` < 1440): a negative `timedelta` normalises to
`days = -1` with a positive `seconds` field, i.e. the difference in
seconds modulo 86400. -/
def durationHours (s e : ℕ) : ℚ :=
  (((e * 60 + 86400 - s * 60) % 86400 : ℕ) : ℚ) / 3600

/-- Python `round(x, 2)`.  (Reachable totals are multiples of 1/60 hour,
whose hundredths never land exactly on a tie, so tie-breaking direction is
immaterial; half-up is used here.) -/
def round2 (q : ℚ) : ℚ :=
  ((q * 100 + 1 / 2).floor : ℤ) / 100

/-- Start offset of the following match, or the text length for the last
match (`matches[i+1].start() if i+1 < len(matches) else len(text)`). -/
def nextStart : List TimeMatch → ℕ → ℕ
  | [], n => n
  | m :: _, _ => m.mstart

/-- `text[a:b]` for `a ≤ b`. -/
def blockSlice (cs : List Char) (a b : ℕ) : List Char :=
  (cs.drop a).take (b - a)

/-- `speaker.lower() in text[m.end():block_end].lower()`. -/
def blockContains (cs spk : List Char) (m : TimeMatch) (bend : ℕ) : Bool :=
  isSubOf (lowerList spk) (lowerList (blockSlice cs m.mend bend))

/-- The `for i, m in enumerate(matches)` loop of `extract_speaker_hours`:
accumulate the durations of the matches whose trailing text block contains
the speaker.  `none` models the uncaught `ValueError` from `parse_time`
on a malformed token whose block does contain the speaker. -/
def speakerLoop (cs spk : List Char) : List TimeMatch → Option ℚ
  | [] => some 0
  | m :: rest =>
    if blockContains cs spk m (nextStart rest cs.length) then
      match parse_time m.g1, parse_time m.g2 with
      | some s, some e =>
        match speakerLoop cs spk rest with
        | some t => some (durationHours s e + t)
        | none => none
      | _, _ => none
    else speakerLoop cs spk rest

/-- `extract_speaker_hours` from `src/app.py`.  `none` models an uncaught
exception escaping the function. -/
def extract_speaker_hours (text speaker : String) : Option ℚ :=
  (speakerLoop text.data speaker.data (findMatches text.data)).map round2

/-- `derive_fy` from `src/app.py`, first line:
`fy = d.year + 1 if d.month >= 10 else d.year`. -/
def fiscalYearInt (year month : ℕ) : ℕ :=
  if 10 ≤ month then year + 1 else year

/-- Python slicing `s[-2:]`: the last two characters (or the whole string
when it is shorter than two characters). -/
def pyLastTwo (cs : List Char) : List Char :=
  cs.drop (cs.length - 2)

/-- `derive_fy` from `src/app.py`: returns the formatted label
`f"FY{str(fy)[-2:]}"`, not the integer fiscal year. -/
def derive_fy (year month : ℕ) : String :=
  "FY" ++ String.mk (pyLastTwo (toString (fiscalYearInt year month)).data)

/-- `HOURLY_RATES` from `src/app.py` (same table as
`src/valuation/constants.py`). -/
def HOURLY_RATES : List (String × ℚ) :=
  [("Executive / Senior Leadership", 149), ("Senior Specialist", 131)]

/-- `LABOR_MULTIPLIER = 3.5` from `src/app.py` (named
`TOTAL_LABOR_MULTIPLIER` in `src/valuation/constants.py`). -/
def LABOR_MULTIPLIER : ℚ :=
  7 / 2

/-- `labor_value = presentation_hours * LABOR_MULTIPLIER * HOURLY_RATES[category]`
from `src/app.py`.  `none` models the `KeyError` on an unknown category. -/
def labor_value (category : String) (presentation_hours : ℚ) : Option ℚ :=
  (HOURLY_RATES.lookup category).map (fun r => presentation_hours * LABOR_MULTIPLIER * r)

/-- `STANDARD_TRAVEL_DAYS` from `src/valuation/constants.py`. -/
def STANDARD_TRAVEL_DAYS : ℕ :=
  2

/-- `TRAVEL_DAY_MIE_RATE = 0.75` from `src/valuation/constants.py`. -/
def TRAVEL_DAY_MIE_RATE : ℚ :=
  3 / 4

/-- `days = (travel_end - travel_start).days + 1` from `src/app.py`;
dates are modelled by their day ordinals. -/
def tripDays (startOrd endOrd : ℤ) : ℤ :=
  (endOrd - startOrd) + 1

/-- `nights = max(days - 1, 0)` from `src/app.py`. -/
def tripNights (startOrd endOrd : ℤ) : ℤ :=
  max (tripDays startOrd endOrd - 1) 0

/-- `travel_total = airfare + lodging_rate * nights + mie_rate * days`
from `src/app.py`: M&IE is charged at the full rate for every day of the
trip, with no travel-day split. -/
def travel_total (airfare lodging_rate mie_rate : ℚ) (startOrd endOrd : ℤ) : ℚ :=
  airfare + lodging_rate * ((tripNights startOrd endOrd : ℤ) : ℚ)
    + mie_rate * ((tripDays startOrd endOrd : ℤ) : ℚ)

/-- Modelled from the spec: the M&IE travel-day split
(`mie_rate × TRAVEL_DAY_MIE_FACTOR × STANDARD_TRAVEL_DAYS` for travel days
plus `mie_rate × max(days − STANDARD_TRAVEL_DAYS, 0)` for full days).  The
policy constants exist in `src/valuation/constants.py`, but no code under
`src/` applies them; this definition follows the spec's formula. -/
def mie_split_policy (mie_rate : ℚ) (days : ℤ) : ℚ :=
  mie_rate * TRAVEL_DAY_MIE_RATE * (STANDARD_TRAVEL_DAYS : ℚ)
    + mie_rate * ((max (days - (STANDARD_TRAVEL_DAYS : ℤ)) 0 : ℤ) : ℚ)

/-- `total_value = labor_value + travel_total` from `src/app.py`. -/
def total_value (labor travel : ℚ) : ℚ :=
  labor + travel

/-- `per_engagement_value = total_value / len(selected_engagements) if
selected_engagements else 0` from `src/app.py`: an empty selection yields
`0`, it does not raise. -/
def per_engagement_value (total : ℚ) (selected_engagements : List String) : ℚ :=
  if selected_engagements.isEmpty then 0
  else total / (selected_engagements.length : ℚ)

/-- `ECONOMY_REGION` from `src/app.py`. -/
def ECONOMY_REGION : List (String × String) :=
  [("United States", "North America"),
   ("Canada", "North America"),
   ("Mexico", "North America"),
   ("Chile", "Latin America"),
   ("Peru", "Latin America"),
   ("Japan", "Northeast Asia"),
   ("Korea", "Northeast Asia"),
   ("China", "Northeast Asia"),
   ("Chinese Taipei", "Northeast Asia"),
   ("Hong Kong", "Northeast Asia"),
   ("Singapore", "Southeast Asia"),
   ("Malaysia", "Southeast Asia"),
   ("Thailand", "Southeast Asia"),
   ("Vietnam", "Southeast Asia"),
   ("Philippines", "Southeast Asia"),
   ("Indonesia", "Southeast Asia"),
   ("Brunei", "Southeast Asia"),
   ("Australia", "Oceania"),
   ("New Zealand", "Oceania"),
   ("Papua New Guinea", "Oceania"),
   ("Russia", "Russia")]

/-- `REGION_BANDS` from `src/app.py`. -/
def REGION_BANDS : List ((String × String) × ℕ) :=
  [(("North America", "North America"), 550),
   (("North America", "Latin America"), 700),
   (("North America", "Northeast Asia"), 1400),
   (("North America", "Southeast Asia"), 1400),
   (("North America", "Oceania"), 1500),
   (("Latin America", "Latin America"), 600),
   (("Northeast Asia", "Northeast Asia"), 600),
   (("Southeast Asia", "Southeast Asia"), 600),
   (("Oceania", "Oceania"), 700),
   (("Northeast Asia", "Southeast Asia"), 900),
   (("Southeast Asia", "Oceania"), 900),
   (("Northeast Asia", "Russia"), 900)]

/-- The largest airfare value appearing in `REGION_BANDS` ("the most
expensive tier of the region band table"). -/
def maxRegionBand : ℕ :=
  (REGION_BANDS.map (fun p => p.2)).foldr max 0

/-- `calculate_airfare` from `src/app.py`: region lookup for both
economies, then the band table under both key orders, with `1400` when
either economy is unknown or the pair is missing in both orders. -/
def calculate_airfare (origin_economy host_economy : String) : ℕ :=
  match ECONOMY_REGION.lookup origin_economy, ECONOMY_REGION.lookup host_economy with
  | some r1, some r2 =>
    match REGION_BANDS.lookup (r1, r2) with
    | some v => v
    | none =>
      match REGION_BANDS.lookup (r2, r1) with
      | some v => v
      | none => 1400
  | _, _ => 1400

/-- Modelled from the spec: the SeniorityClassifier component.  No
classifier exists under `src/` (the app takes the category from a select
box); the spec prescribes an ordered downgrade-term list tested first,
then executive patterns, first match wins, with the matched term cited in
the rationale, and conservative defaults.  Word-boundary matching is
simplified to case-insensitive substring containment, which is faithful
for the ordering behaviour the claims address. -/
def DOWNGRADE_TERMS : List String :=
  ["former", "advisor", "board", "founder"]

/-- Modelled from the spec: ordered current-role executive patterns. -/
def EXECUTIVE_TERMS : List String :=
  ["chief executive officer", "ceo", "chief", "vice president",
   "managing director", "country director", "regional director",
   "head of", "president"]

/-- Case-insensitive substring test on strings. -/
def strContains (needle haystack : String) : Bool :=
  isSubOf (lowerList needle.data) (lowerList haystack.data)

/-- Modelled from the spec: classifier returning `(category, rationale)`.
Downgrade terms are tested before executive patterns; the first match
wins and is cited; empty or signal-free windows default to Senior
Specialist with an explicit rationale. -/
def classify_seniority (window : String) : String × String :=
  if window.data.isEmpty then
    ("Senior Specialist", "not found, defaulted conservatively")
  else
    match DOWNGRADE_TERMS.find? (fun t => strContains t window) with
    | some t => ("Senior Specialist", "downgrade term: " ++ t)
    | none =>
      match EXECUTIVE_TERMS.find? (fun p => strContains p window) with
      | some p => ("Executive / Senior Leadership", "executive pattern: " ++ p)
      | none => ("Senior Specialist", "no signal detected")

/-- Declarative (spec-side) reading of the speaker attribution for C4:
each match paired with the start offset of the next match (or the text
length for the last one). -/
def withNext (len : ℕ) : List TimeMatch → List (TimeMatch × ℕ)
  | [] => []
  | m :: rest => (m, nextStart rest len) :: withNext len rest

/-- Duration of one parsed interval; intervals whose tokens fail to parse
contribute `0` (such an interval can only occur in a term of
`attributedSum` when `extract_speaker_hours` raises, which the theorems
exclude by hypothesis). -/
def intervalHours (m : TimeMatch) : ℚ :=
  match parse_time m.g1, parse_time m.g2 with
  | some s, some e => durationHours s e
  | _, _ => 0

/-- The matches whose bounded text span contains the speaker
(case-insensitively). -/
def attributedMatches (text speaker : String) : List (TimeMatch × ℕ) :=
  (withNext text.data.length (findMatches text.data)).filter
    (fun p => blockContains text.data speaker.data p.1 p.2)

/-- Spec-side value: sum of the durations of exactly the intervals whose
bounded span contains the speaker's name. -/
def attributedSum (text speaker : String) : ℚ :=
  ((attributedMatches text speaker).map (fun p => intervalHours p.1)).sum

/-- A captured time token ends with an explicit am/pm designator
(case-insensitively). -/
def endsDesig (g : List Char) : Prop :=
  ∃ t a b, g = t ++ [a, b] ∧ (a.toLower = 'a' ∨ a.toLower = 'p') ∧ b.toLower = 'm'

/-! ## Shared helper lemmas -/

theorem takeAmPm_shape (cs ap r : List Char) (h : takeAmPm cs = some (ap, r)) :
    ∃ a b, ap = [a, b] ∧ (a.toLower = 'a' ∨ a.toLower = 'p') ∧ b.toLower = 'm' := by
  match cs with
  | [] => exact Option.noConfusion h
  | [a] => exact Option.noConfusion h
  | a :: b :: t =>
    rw [takeAmPm] at h
    by_cases hc : ((a.toLower = 'a' || a.toLower = 'p') && b.toLower = 'm') = true
    · rw [if_pos hc] at h
      have h' := Option.some.inj h
      injection h' with h1 h2
      simp only [Bool.and_eq_true, Bool.or_eq_true, decide_eq_true_eq] at hc
      exact ⟨a, b, h1.symm, hc.1, hc.2⟩
    · rw [if_neg hc] at h
      exact Option.noConfusion h

theorem takeTimeTail_endsDesig (hd rest g r : List Char)
    (h : takeTimeTail hd rest = some (g, r)) : endsDesig g := by
  rw [takeTimeTail] at h
  cases hap : takeAmPm (takeSpaces rest).2 with
  | none => rw [hap] at h; exact Option.noConfusion h
  | some pr =>
    obtain ⟨ap, r2⟩ := pr
    rw [hap] at h
    have h' := Option.some.inj h
    injection h' with h1 h2
    obtain ⟨a, b, rfl, ha, hb⟩ := takeAmPm_shape _ _ _ hap
    refine ⟨hd ++ (takeSpaces rest).1, a, b, ?_, ha, hb⟩
    simp [← h1]

theorem takeTimeGroup_endsDesig (cs g r : List Char)
    (h : takeTimeGroup cs = some (g, r)) : endsDesig g := by
  unfold takeTimeGroup at h
  split at h
  · split at h
    · exact takeTimeTail_endsDesig _ _ _ _ h
    · exact Option.noConfusion h
  · split at h
    · exact takeTimeTail_endsDesig _ _ _ _ h
    · exact Option.noConfusion h
  · exact Option.noConfusion h

theorem matchAt_endsDesig (cs g1 g2 r : List Char)
    (h : matchAt cs = some (g1, g2, r)) : endsDesig g1 ∧ endsDesig g2 := by
  unfold matchAt at h
  split at h
  · exact Option.noConfusion h
  · rename_i g1' r1 hg1
    split at h
    · exact Option.noConfusion h
    · rename_i r2 _
      split at h
      · exact Option.noConfusion h
      · rename_i g2' r3 hg2
        have h' := Option.some.inj h
        injection h' with e1 e23
        injection e23 with e2 e3
        exact ⟨e1 ▸ takeTimeGroup_endsDesig _ _ _ hg1,
          e2 ▸ takeTimeGroup_endsDesig _ _ _ hg2⟩

theorem scanMatches_endsDesig :
    ∀ (fuel : ℕ) (cs : List Char) (pos : ℕ) (m : TimeMatch),
      m ∈ scanMatches fuel cs pos → endsDesig m.g1 ∧ endsDesig m.g2 := by
  intro fuel
  induction fuel with
  | zero => intro cs pos m h; simp [scanMatches] at h
  | succ f ih =>
    intro cs pos m h
    cases cs with
    | nil => simp [scanMatches] at h
    | cons c cs' =>
      rw [scanMatches] at h
      cases hma : matchAt (c :: cs') with
      | some g =>
        obtain ⟨g1, g2, rest⟩ := g
        rw [hma] at h
        rcases List.mem_cons.mp h with h | h
        · have hd := matchAt_endsDesig _ _ _ _ hma
          rw [h]
          exact hd
        · exact ih _ _ _ h
      | none =>
        rw [hma] at h
        exact ih _ _ _ h

theorem speakerLoop_cons_skip (cs spk : List Char) (m : TimeMatch) (rest : List TimeMatch)
    (hb : blockContains cs spk m (nextStart rest cs.length) = false) :
    speakerLoop cs spk (m :: rest) = speakerLoop cs spk rest := by
  rw [speakerLoop]
  simp [hb]

theorem speakerLoop_cons_add (cs spk : List Char) (m : TimeMatch) (rest : List TimeMatch)
    (s e : ℕ) (t : ℚ)
    (hb : blockContains cs spk m (nextStart rest cs.length) = true)
    (h1 : parse_time m.g1 = some s) (h2 : parse_time m.g2 = some e)
    (hr : speakerLoop cs spk rest = some t) :
    speakerLoop cs spk (m :: rest) = some (durationHours s e + t) := by
  rw [speakerLoop]
  simp [hb, h1, h2, hr]

/-- The accumulating loop, when it returns a total, returns the sum of
the durations of exactly the matches whose block contains the speaker. -/
theorem speakerLoop_spec (cs spk : List Char) :
    ∀ (ms : List TimeMatch) (t : ℚ), speakerLoop cs spk ms = some t →
      t = (((withNext cs.length ms).filter
            (fun p => blockContains cs spk p.1 p.2)).map
          (fun p => intervalHours p.1)).sum := by
  intro ms
  induction ms with
  | nil =>
    intro t h
    obtain rfl := Option.some.inj h
    simp [withNext]
  | cons m rest ih =>
    intro t h
    rw [speakerLoop] at h
    rw [withNext]
    by_cases hb : blockContains cs spk m (nextStart rest cs.length) = true
    · rw [if_pos hb] at h
      cases hp1 : parse_time m.g1 with
      | none => rw [hp1] at h; exact absurd h (by cases parse_time m.g2 <;> simp)
      | some s =>
        cases hp2 : parse_time m.g2 with
        | none => rw [hp1, hp2] at h; exact Option.noConfusion h
        | some e =>
          rw [hp1, hp2] at h
          cases hr : speakerLoop cs spk rest with
          | none => rw [hr] at h; exact Option.noConfusion h
          | some t' =>
            rw [hr] at h
            obtain rfl := (Option.some.inj h).symm
            rw [List.filter_cons]
            simp only [hb, if_true, List.map_cons, List.sum_cons]
            rw [intervalHours, hp1, hp2, ih t' hr]
    · rw [if_neg hb] at h
      rw [Bool.not_eq_true] at hb
      rw [List.filter_cons]
      simp only [hb, Bool.false_eq_true, if_false]
      exact ih t h

/-- When no block contains the speaker the loop returns `some 0`. -/
theorem speakerLoop_of_no_span (cs spk : List Char) :
    ∀ ms : List TimeMatch,
      (withNext cs.length ms).filter (fun p => blockContains cs spk p.1 p.2) = [] →
      speakerLoop cs spk ms = some 0 := by
  intro ms
  induction ms with
  | nil => intro _; rfl
  | cons m rest ih =>
    intro h
    rw [withNext, List.filter_cons] at h
    by_cases hb : blockContains cs spk m (nextStart rest cs.length) = true
    · simp only [hb, if_true] at h
      exact absurd h (by simp)
    · rw [Bool.not_eq_true] at hb
      simp only [hb, Bool.false_eq_true, if_false] at h
      rw [speakerLoop, if_neg (by simp [hb])]
      exact ih h

/-- `round2` is the identity on integers. -/
theorem round2_intCast (n : ℤ) : round2 ((n : ℤ) : ℚ) = n := by
  have h : ((n : ℚ) * 100 + 1 / 2).floor = ⌊((n : ℚ) * 100 + 1 / 2)⌋ := rfl
  have h0 : ⌊(1 / 2 : ℚ)⌋ = 0 := by
    rw [Int.floor_eq_zero_iff]
    constructor <;> norm_num
  rw [round2, h, show ((n : ℚ) * 100 + 1 / 2) = ((n * 100 : ℤ) : ℚ) + 1 / 2 by push_cast; ring,
    Int.floor_int_add, h0]
  push_cast
  ring

theorem round2_zero : round2 0 = 0 := by
  have h := round2_intCast 0
  simpa using h

theorem round2_one : round2 1 = 1 := by
  have h := round2_intCast 1
  simpa using h

/-- Association-list lookup success implies membership. -/
theorem lookup_mem {α β : Type} [BEq α] [LawfulBEq α] {k : α} {v : β} :
    ∀ {l : List (α × β)}, l.lookup k = some v → (k, v) ∈ l := by
  intro l
  induction l with
  | nil => intro h; simp [List.lookup] at h
  | cons p t ih =>
    intro h
    obtain ⟨k', v'⟩ := p
    rw [List.lookup] at h
    by_cases hk : (k == k') = true
    · rw [hk] at h
      obtain rfl := Option.some.inj h
      obtain rfl := eq_of_beq hk
      exact List.mem_cons_self _ _
    · rw [Bool.not_eq_true] at hk
      rw [hk] at h
      exact List.mem_cons_of_mem _ (ih h)

/-- The band table never contains an off-diagonal pair in both key
orders, so two successful lookups under swapped keys agree. -/
theorem bands_pair_unique :
    ∀ p ∈ REGION_BANDS, ∀ q ∈ REGION_BANDS,
      p.1.1 = q.1.2 → p.1.2 = q.1.1 → p.2 = q.2 := by
  decide

theorem bands_symm_val {r1 r2 : String} {v w : ℕ}
    (h1 : REGION_BANDS.lookup (r1, r2) = some v)
    (h2 : REGION_BANDS.lookup (r2, r1) = some w) : v = w :=
  bands_pair_unique ((r1, r2), v) (lookup_mem h1) ((r2, r1), w) (lookup_mem h2) rfl rfl

/-! ## Claim theorems -/

/-- C1 (code_bug evaluation): on airfare 1000, lodging 150/night, M&IE
75/day, a 5-day trip (ordinals 0..4) and two engagements, the code's
`travel_total` is 1975.00 and the per-engagement amount 987.50, while the
documented M&IE travel-day split would give 1937.50; the two disagree. -/
theorem travel_mie_unsplit_bug :
    travel_total 1000 150 75 0 4 = 1975 ∧
    per_engagement_value (total_value 0 (travel_total 1000 150 75 0 4)) [("W1"), ("W2")]
      = 1975 / 2 ∧
    1000 + 150 * ((tripNights 0 4 : ℤ) : ℚ) + mie_split_policy 75 (tripDays 0 4) = 3875 / 2 ∧
    travel_total 1000 150 75 0 4
      ≠ 1000 + 150 * ((tripNights 0 4 : ℤ) : ℚ) + mie_split_policy 75 (tripDays 0 4) := by
  have hd : tripDays 0 4 = 5 := by norm_num [tripDays]
  have hn : tripNights 0 4 = 4 := by norm_num [tripNights, tripDays]
  have hs : mie_split_policy 75 5 = 675 / 2 := by
    norm_num [mie_split_policy, TRAVEL_DAY_MIE_RATE, STANDARD_TRAVEL_DAYS]
  refine ⟨?_, ?_, ?_, ?_⟩
  · norm_num [travel_total, hd, hn]
  · norm_num [travel_total, hd, hn, total_value, per_engagement_value, List.isEmpty]
  · rw [hd, hn, hs]; norm_num
  · rw [hd, hn, hs]; norm_num [travel_total, hd, hn]

/-- C5 counterexample: at 0.25 presentation hours the computed Senior
Specialist labor value is 131 × 0.25 × 3.5 = 114.625, a value with three
decimal places — so no rounding to 2 decimals happens at the point of
calculation. -/
theorem labor_value_unrounded_counterexample :
    labor_value ("Senior Specialist") (1 / 4) = some (917 / 8) ∧
    ¬ ∃ n : ℤ, (917 / 8 : ℚ) = (n : ℚ) / 100 := by
  constructor
  · have hl : HOURLY_RATES.lookup ("Senior Specialist") = some 131 := rfl
    rw [labor_value, hl, Option.map]
    norm_num [LABOR_MULTIPLIER]
  · rintro ⟨n, hn⟩
    have h3 : (91700 : ℤ) = 8 * n := by
      have h2 : (91700 : ℚ) = ((8 * n : ℤ) : ℚ) := by
        push_cast
        linarith [hn]
      exact_mod_cast h2
    omega

/-- C5 amended: `labor_value` is exactly
`presentation_hours × LABOR_MULTIPLIER × hourly_rate[category]`, with no
rounding applied at the point of calculation; the Scenario-2 value
131 × 2.0 × 3.5 = 917.00 holds exactly. -/
theorem labor_value_formula (h : ℚ) :
    labor_value ("Senior Specialist") h = some (h * LABOR_MULTIPLIER * 131) ∧
    labor_value ("Executive / Senior Leadership") h = some (h * LABOR_MULTIPLIER * 149) ∧
    labor_value ("Senior Specialist") 2 = some 917 := by
  refine ⟨rfl, rfl, ?_⟩
  have hl : labor_value ("Senior Specialist") 2 = some (2 * LABOR_MULTIPLIER * 131) := rfl
  rw [hl, LABOR_MULTIPLIER]
  norm_num

/-- C6 counterexample: with an empty engagement list the allocation
returns the value 0 — it does not fail. -/
theorem allocation_empty_returns_zero_counterexample :
    per_engagement_value 100 [] = 0 :=
  rfl

/-- C6 amended: `per_engagement_value` returns 0 for an empty engagement
list (no error is raised); for a non-empty list it divides the total
evenly by the number of engagements. -/
theorem allocation_division_spec (total : ℚ) (es : List String) (h : es ≠ []) :
    per_engagement_value total [] = 0 ∧
    per_engagement_value total es = total / (es.length : ℚ) := by
  refine ⟨rfl, ?_⟩
  rw [per_engagement_value, if_neg]
  simp [List.isEmpty_iff, h]

theorem allocation_division_spec_witness :
    per_engagement_value 50 [("W1"), ("W2")] = 50 / ((2 : ℕ) : ℚ) := by
  have h := (allocation_division_spec 50 [("W1"), ("W2")] (by simp)).2
  simpa using h

/-- C8 counterexample: the fiscal-period resolver returns the formatted
label `"FY26"` for 2025-10-01, which is not the decimal representation of
the integer 2026 — the formatting is inside the resolver, not layered
outside it. -/
theorem derive_fy_label_counterexample :
    derive_fy 2025 10 = "FY26" ∧ derive_fy 2025 9 = "FY25" ∧
    toString (2026 : ℕ) = "2026" ∧ ("FY26" : String) ≠ "2026" := by
  refine ⟨by decide, by decide, by decide, by decide⟩

/-- C8 amended: `derive_fy` computes the integer fiscal year as
`year + 1` when `month ≥ 10` and `year` otherwise, but returns the label
`"FY"` followed by the last two characters of its decimal string;
2025-10-01 resolves to `"FY26"` and 2025-09-30 to `"FY25"`. -/
theorem derive_fy_branches (y m : ℕ) :
    (10 ≤ m → derive_fy y m = "FY" ++ String.mk (pyLastTwo (toString (y + 1)).data)) ∧
    (m < 10 → derive_fy y m = "FY" ++ String.mk (pyLastTwo (toString y).data)) ∧
    derive_fy 2025 10 = "FY26" ∧ derive_fy 2025 9 = "FY25" := by
  refine ⟨?_, ?_, by decide, by decide⟩
  · intro h
    rw [derive_fy, fiscalYearInt, if_pos h]
  · intro h
    rw [derive_fy, fiscalYearInt, if_neg (by omega)]

theorem derive_fy_branches_witness :
    derive_fy 2030 11 = "FY" ++ String.mk (pyLastTwo (toString (2030 + 1)).data) :=
  (derive_fy_branches 2030 11).1 (by norm_num)

/-- C9 counterexample: for an economy absent from `ECONOMY_REGION` the
airfare lookup returns the fixed default 1400, which is not the most
expensive tier of the band table (1500, North America–Oceania). -/
theorem unknown_region_not_max_band :
    calculate_airfare ("Atlantis") ("Japan") = 1400 ∧
    maxRegionBand = 1500 ∧ (1400 : ℕ) ≠ 1500 := by
  refine ⟨rfl, by decide, by decide⟩

/-- C9 amended: whenever either economy is missing from the
economy→region mapping, `calculate_airfare` returns the fixed fallback
1400 (not the table's maximum band). -/
theorem unknown_region_default_1400 (a b : String)
    (h : ECONOMY_REGION.lookup a = none ∨ ECONOMY_REGION.lookup b = none) :
    calculate_airfare a b = 1400 := by
  unfold calculate_airfare
  rcases h with h | h
  · rw [h]
  · rw [h]
    cases ECONOMY_REGION.lookup a <;> rfl

theorem unknown_region_default_1400_witness :
    calculate_airfare ("Narnia") ("Chile") = 1400 :=
  unknown_region_default_1400 ("Narnia") ("Chile") (Or.inl rfl)

/-- C10: the auto-calculated airfare is symmetric in origin and host
economy: the band table is consulted under both key orders and never
contains an off-diagonal pair in both orders. -/
theorem calculate_airfare_symm (a b : String) :
    calculate_airfare a b = calculate_airfare b a := by
  unfold calculate_airfare
  cases ha : ECONOMY_REGION.lookup a <;> cases hb : ECONOMY_REGION.lookup b
  · rfl
  · rfl
  · rfl
  · rename_i r1 r2
    dsimp only
    cases h12 : REGION_BANDS.lookup (r1, r2) <;> cases h21 : REGION_BANDS.lookup (r2, r1)
    · rfl
    · rfl
    · rfl
    · rename_i v w
      exact bands_symm_val h12 h21

/-- C3 (spec-modelled): a window containing the downgrade term "former"
is classified Senior Specialist with the matched term cited, regardless
of any executive pattern also present, because downgrade terms are tested
first and the first match wins. -/
theorem downgrade_term_wins (w : String) (h : strContains ("former") w = true) :
    (classify_seniority w).1 = "Senior Specialist" ∧
    strContains ("former") ((classify_seniority w).2) = true := by
  have hne : w.data.isEmpty = false := by
    cases hw : w.data with
    | nil =>
      exfalso
      simp only [strContains, hw] at h
      exact absurd h (by decide)
    | cons c cs => rfl
  rw [classify_seniority]
  simp only [hne, Bool.false_eq_true, if_false]
  rw [DOWNGRADE_TERMS]
  simp only [List.find?, h]
  exact ⟨trivial, by decide⟩

/-- C2 counterexample: scenario-1 text in 24-hour notation yields 0.0
attributed hours, not 1.0, because the pattern requires an am/pm
designator on both sides of the range; a one-sided designator does not
inherit to the other side either. -/
theorem twentyfour_hour_not_matched :
    extract_speaker_hours ("10:00-11:00 Jane Smith presents") ("Jane Smith") = some 0 ∧
    extract_speaker_hours ("10:00-11:00 am Jane Smith presents") ("Jane Smith") = some 0 := by
  constructor
  · have hm : findMatches (String.data ("10:00-11:00 Jane Smith presents")) = [] := by
      decide
    rw [extract_speaker_hours, hm]
    simp only [speakerLoop, Option.map_some']
    rw [round2_zero]
  · have hm : findMatches (String.data ("10:00-11:00 am Jane Smith presents")) = [] := by
      decide
    rw [extract_speaker_hours, hm]
    simp only [speakerLoop, Option.map_some']
    rw [round2_zero]

/-- C2 amended: the scan accepts only 12-hour times carrying an explicit
am/pm designator on both sides of the pair (hyphen or en-dash separator,
optional surrounding whitespace); every produced match's two captured
tokens end in a designator, and with designators present Scenario 1
yields 1.0 hour. -/
theorem ampm_required_both_sides (text : String) (m : TimeMatch)
    (hm : m ∈ findMatches text.data) :
    (endsDesig m.g1 ∧ endsDesig m.g2) ∧
    extract_speaker_hours ("10:00 am - 11:00 am Jane Smith presents") ("Jane Smith")
      = some 1 := by
  constructor
  · exact scanMatches_endsDesig _ _ _ m hm
  · have hm0 : findMatches (String.data ("10:00 am - 11:00 am Jane Smith presents"))
        = [⟨String.data ("10:00 am"), String.data ("11:00 am"), 0, 19⟩] := by decide
    rw [extract_speaker_hours, hm0]
    rw [speakerLoop_cons_add _ _ _ [] 600 660 0 (by decide) (by decide) (by decide) rfl]
    simp only [Option.map_some']
    have hd : durationHours 600 660 = 1 := by
      rw [durationHours]
      norm_num
    rw [hd, add_zero, round2_one]

theorem ampm_required_both_sides_witness :
    (endsDesig (⟨String.data ("1:30 am"), String.data ("2:30 am"), 0, 17⟩ : TimeMatch).g1 ∧
      endsDesig (⟨String.data ("1:30 am"), String.data ("2:30 am"), 0, 17⟩ : TimeMatch).g2) ∧
    extract_speaker_hours ("10:00 am - 11:00 am Jane Smith presents") ("Jane Smith")
      = some 1 :=
  ampm_required_both_sides ("1:30 am - 2:30 am")
    (⟨String.data ("1:30 am"), String.data ("2:30 am"), 0, 17⟩) (by decide)

/-- C4: whenever `extract_speaker_hours` returns a value, that value is
the 2-decimal rounding of the sum of the durations of exactly those
parsed intervals whose bounded text span (end of the match to start of
the next, or end of text) contains the speaker name case-insensitively;
and when no span contains the name the result is 0.0, returned without
raising. -/
theorem speaker_hours_span_sum (text speaker : String) :
    (∀ r : ℚ, extract_speaker_hours text speaker = some r →
      r = round2 (attributedSum text speaker)) ∧
    (attributedMatches text speaker = [] →
      extract_speaker_hours text speaker = some 0) := by
  constructor
  · intro r h
    rw [extract_speaker_hours] at h
    obtain ⟨t, ht, hrt⟩ := Option.map_eq_some'.mp h
    rw [← hrt, speakerLoop_spec text.data speaker.data (findMatches text.data) t ht]
    rfl
  · intro he
    have he' : (withNext text.data.length (findMatches text.data)).filter
        (fun p => blockContains text.data speaker.data p.1 p.2) = [] := he
    rw [extract_speaker_hours,
      speakerLoop_of_no_span text.data speaker.data (findMatches text.data) he']
    simp only [Option.map_some']
    rw [round2_zero]

theorem speaker_hours_span_sum_witness :
    extract_speaker_hours ("9:00 am - 10:30 am Opening by Bob") ("Alice") = some 0 :=
  (speaker_hours_span_sum ("9:00 am - 10:30 am Opening by Bob") ("Alice")).2 (by decide)

/-- C7 counterexample: the token "13:00 pm" matches the range pattern
but is not a valid 12-hour clock time; because the speaker appears in
its span, `parse_time` raises an uncaught `ValueError` (modelled as
`none`) instead of the token being skipped — extraction does crash on
malformed domain text. -/
theorem malformed_time_raises_counterexample :
    extract_speaker_hours ("13:00 pm – 2:00 pm Jane Smith") ("Jane Smith") = none := by
  decide

/-- C7 amended: a malformed time token is skipped (scan continues) only
when the speaker does not occur in that token's span, since parsing is
attempted only for speaker-matching spans; when the speaker occurs in
the span of a malformed token, the uncaught parse error aborts the whole
extraction. -/
theorem malformed_time_skip_or_raise :
    extract_speaker_hours
      ("13:00 pm – 2:00 pm Alice 10:00 am – 11:00 am Jane Smith talk") ("Jane Smith")
      = some 1 ∧
    extract_speaker_hours ("13:00 pm – 2:00 pm Jane Smith") ("Jane Smith") = none := by
  constructor
  · have hm : findMatches
        (String.data ("13:00 pm – 2:00 pm Alice 10:00 am – 11:00 am Jane Smith talk"))
        = [⟨String.data ("13:00 pm"), String.data ("2:00 pm"), 0, 18⟩,
           ⟨String.data ("10:00 am"), String.data ("11:00 am"), 25, 44⟩] := by decide
    rw [extract_speaker_hours, hm]
    rw [speakerLoop_cons_skip _ _ _ _ (by decide)]
    rw [speakerLoop_cons_add _ _ _ [] 600 660 0 (by decide) (by decide) (by decide) rfl]
    simp only [Option.map_some']
    have hd : durationHours 600 660 = 1 := by
      rw [durationHours]
      norm_num
    rw [hd, add_zero, round2_one]
  · decide

theorem downgrade_term_wins_witness :
    (classify_seniority ("Jane Doe, former CEO of MegaCorp")).1 = "Senior Specialist" ∧
    strContains ("former") ((classify_seniority ("Jane Doe, former CEO of MegaCorp")).2)
      = true :=
  downgrade_term_wins ("Jane Doe, former CEO of MegaCorp") (by decide)

end OT5
